import Mathlib

/-!
Verification of the notification-service core (Go sources under
`internal/domain`, `internal/service`, `internal/infrastructure` and
`internal/repository/postgres`) against its natural-language specification.

The Go code is shallowly embedded: pure decision functions become Lean
functions, the dispatch orchestrator and the WebSocket hub become explicit
state-passing functions, and external collaborators (SendGrid, Firebase,
PostgreSQL) are modelled by outcome oracles carried in an environment record.
`uuid.New()` is modelled by a fresh-id counter and `time.Now()` by explicit
clock parameters, since both are effects of the runtime, not of the logic
under verification.
-/

/-! ## Domain model (`internal/domain/notification.go`) -/

/-- `NotificationType` — the delivery channel (`email` / `push` / `in_app`). -/
inductive NotificationType where
  | email
  | push
  | inApp
deriving DecidableEq, Repr

/-- `NotificationStatus` — lifecycle status strings of a notification. -/
inductive NotificationStatus where
  | pending
  | sending
  | sent
  | delivered
  | failed
deriving DecidableEq, Repr

/-- The `Notification` entity. `uuid.UUID` fields are modelled as `Nat`,
`time.Time` as a `Nat` clock value, and the open `map[string]interface{}`
metadata as an association list of strings. -/
structure Notification where
  id : Nat
  userId : Nat
  type : NotificationType
  channel : String
  title : String
  body : String
  metadata : List (String × String)
  status : NotificationStatus
  readAt : Option Nat
  sentAt : Option Nat
  createdAt : Nat
  updatedAt : Nat
deriving DecidableEq, Repr

/-- `NewNotification` — constructor; `id` models `uuid.New()` and `now`
models `time.Now()`. -/
def NewNotification (id userId : Nat) (notifType : NotificationType)
    (channel title body : String) (now : Nat) : Notification :=
  { id := id
  , userId := userId
  , type := notifType
  , channel := channel
  , title := title
  , body := body
  , metadata := []
  , status := NotificationStatus.pending
  , readAt := none
  , sentAt := none
  , createdAt := now
  , updatedAt := now }

/-- `Notification.MarkAsSent`. -/
def Notification.MarkAsSent (n : Notification) (now : Nat) : Notification :=
  { n with status := NotificationStatus.sent, sentAt := some now, updatedAt := now }

/-- `Notification.MarkAsDelivered`. -/
def Notification.MarkAsDelivered (n : Notification) (now : Nat) : Notification :=
  { n with status := NotificationStatus.delivered, updatedAt := now }

/-- `Notification.MarkAsFailed`. -/
def Notification.MarkAsFailed (n : Notification) (now : Nat) : Notification :=
  { n with status := NotificationStatus.failed, updatedAt := now }

/-- `Notification.MarkAsRead` (domain-level helper). -/
def Notification.MarkAsRead (n : Notification) (now : Nat) : Notification :=
  { n with readAt := some now, updatedAt := now }

/-- `Notification.IsRead`. -/
def Notification.IsRead (n : Notification) : Bool :=
  n.readAt.isSome

/-- A time of day, as the `.Hour()` / `.Minute()` projections the Go code
takes from the stored `time.Time` values. -/
structure TimeOfDay where
  hour : Nat
  minute : Nat
deriving DecidableEq, Repr

/-- `NotificationPreferences` — per-user delivery preferences.
`ChannelSettings` (`map[string]bool`) is an association list. -/
structure NotificationPreferences where
  userId : Nat
  emailEnabled : Bool
  pushEnabled : Bool
  channelSettings : List (String × Bool)
  quietHoursStart : Option TimeOfDay
  quietHoursEnd : Option TimeOfDay
  createdAt : Nat
  updatedAt : Nat
deriving DecidableEq, Repr

/-- `NewDefaultPreferences` — all channels enabled, no quiet hours. -/
def NewDefaultPreferences (userId : Nat) (now : Nat) : NotificationPreferences :=
  { userId := userId
  , emailEnabled := true
  , pushEnabled := true
  , channelSettings := []
  , quietHoursStart := none
  , quietHoursEnd := none
  , createdAt := now
  , updatedAt := now }

/-- `NotificationPreferences.IsChannelEnabled` — returns the per-category
setting when one exists, and defaults to `true` otherwise. -/
def NotificationPreferences.IsChannelEnabled (p : NotificationPreferences)
    (channel : String) : Bool :=
  match p.channelSettings.lookup channel with
  | some enabled => enabled
  | none => true

/-- `NotificationPreferences.IsInQuietHours` — `now` is the current wall
clock (the Go code reads `time.Now()`); times are compared as
minutes-since-midnight. -/
def NotificationPreferences.IsInQuietHours (p : NotificationPreferences)
    (now : TimeOfDay) : Bool :=
  match p.quietHoursStart, p.quietHoursEnd with
  | some qs, some qe =>
    let currentTime := now.hour * 60 + now.minute
    let startTime := qs.hour * 60 + qs.minute
    let endTime := qe.hour * 60 + qe.minute
    if startTime > endTime then
      decide (currentTime ≥ startTime) || decide (currentTime < endTime)
    else
      decide (currentTime ≥ startTime) && decide (currentTime < endTime)
  | _, _ => false

/-! ## Dispatch orchestrator (`internal/service`, file `notification.go`) -/

/-- `SendRequest` — one send request (uuid as `Nat`, `Data` as an
association list). The `Template` field doubles as the category tag: it is
stored into the record's `Channel` column. -/
structure SendRequest where
  userId : Nat
  email : String
  channels : List NotificationType
  template : String
  title : String
  body : String
  data : List (String × String)
deriving DecidableEq, Repr

/-- Persisted side of the orchestrator: the notification rows created so
far, plus the fresh-id counter modelling `uuid.New()`. -/
structure ServiceState where
  records : List Notification
  nextId : Nat
deriving DecidableEq, Repr

/-- Environment of one `Send` call: outcomes of every external collaborator
invocation (preferences repository, SendGrid, Firebase, the hub) plus the
wall clock. `createOk ch` is the database outcome for the insert of the
channel-`ch` record; `updateOk` for the status updates (whose errors the
service only logs). -/
structure SendEnv where
  hasPreferencesRepo : Bool
  prefsResult : Except String NotificationPreferences
  now : TimeOfDay
  clock : Nat
  hasEmailSender : Bool
  hasPushSender : Bool
  hasInAppNotifier : Bool
  emailSendResult : Except String Unit
  emailSendHTMLResult : Except String Unit
  pushSendResult : Except String Unit
  notifyResult : Except String Unit
  createOk : NotificationType → Bool
  updateOk : Bool

/-- Preference resolution at the head of `Send`: query the preferences
repository when present, and fall back to the defaults on any error. -/
def resolvePrefs (env : SendEnv) (req : SendRequest) : NotificationPreferences :=
  if env.hasPreferencesRepo then
    match env.prefsResult with
    | Except.ok p => p
    | Except.error _ => NewDefaultPreferences req.userId env.clock
  else NewDefaultPreferences req.userId env.clock

/-- The row mutation performed by the repository's `UpdateStatus` SQL:
`SET status, updated_at, sent_at = CASE WHEN status = sent THEN now ELSE sent_at END`. -/
def applyUpdateStatus (n : Notification) (status : NotificationStatus)
    (now : Nat) : Notification :=
  { n with
    status := status
    updatedAt := now
    sentAt := if status = NotificationStatus.sent then some now else n.sentAt }

/-- `NotificationRepository.UpdateStatus` applied to the stored rows
(the `UPDATE ... WHERE id = $1`). -/
def repoUpdateStatus (records : List Notification) (id : Nat)
    (status : NotificationStatus) (now : Nat) : List Notification :=
  records.map fun n => if n.id = id then applyUpdateStatus n status now else n

/-- `NotificationService.sendEmail`. Returns the new persisted state and
`some errorMessage` on failure. The choice between `SendHTML` (for the
`otp_verification` template) and plain `Send` is mirrored by selecting the
corresponding oracle. -/
def NotificationService.sendEmail (env : SendEnv) (st : ServiceState)
    (req : SendRequest) : ServiceState × Option String :=
  if !env.hasEmailSender then (st, some "email sender not configured")
  else if req.email = "" then (st, some "email address required")
  else
    let n0 := NewNotification st.nextId req.userId NotificationType.email
      req.template req.title req.body env.clock
    let n := { n0 with metadata := req.data }
    let st1 : ServiceState := { st with nextId := st.nextId + 1 }
    if !env.createOk NotificationType.email then
      (st1, some "failed to create notification record")
    else
      let st2 : ServiceState := { st1 with records := st1.records ++ [n] }
      let sendResult :=
        if req.template = "otp_verification" then env.emailSendHTMLResult
        else env.emailSendResult
      match sendResult with
      | Except.error e =>
        let st3 :=
          if env.updateOk then
            { st2 with records :=
                repoUpdateStatus st2.records n.id NotificationStatus.failed env.clock }
          else st2
        (st3, some ("failed to send email: " ++ e))
      | Except.ok _ =>
        let st3 :=
          if env.updateOk then
            { st2 with records :=
                repoUpdateStatus st2.records n.id NotificationStatus.sent env.clock }
          else st2
        (st3, none)

/-- `NotificationService.sendPush`. -/
def NotificationService.sendPush (env : SendEnv) (st : ServiceState)
    (req : SendRequest) : ServiceState × Option String :=
  if !env.hasPushSender then (st, some "push sender not configured")
  else
    let n0 := NewNotification st.nextId req.userId NotificationType.push
      req.template req.title req.body env.clock
    let n := { n0 with metadata := req.data }
    let st1 : ServiceState := { st with nextId := st.nextId + 1 }
    if !env.createOk NotificationType.push then
      (st1, some "failed to create notification record")
    else
      let st2 : ServiceState := { st1 with records := st1.records ++ [n] }
      match env.pushSendResult with
      | Except.error e =>
        let st3 :=
          if env.updateOk then
            { st2 with records :=
                repoUpdateStatus st2.records n.id NotificationStatus.failed env.clock }
          else st2
        (st3, some ("failed to send push: " ++ e))
      | Except.ok _ =>
        let st3 :=
          if env.updateOk then
            { st2 with records :=
                repoUpdateStatus st2.records n.id NotificationStatus.sent env.clock }
          else st2
        (st3, none)

/-- `NotificationService.sendInApp`: create and persist the record, mark it
`sent` immediately, then broadcast. The `Notify` outcome is only logged by
the Go code, so the oracle value is discarded and never influences the
state or the returned error. -/
def NotificationService.sendInApp (env : SendEnv) (st : ServiceState)
    (req : SendRequest) : ServiceState × Option String :=
  let n0 := NewNotification st.nextId req.userId NotificationType.inApp
    req.template req.title req.body env.clock
  let n := { n0 with metadata := req.data }
  let st1 : ServiceState := { st with nextId := st.nextId + 1 }
  if !env.createOk NotificationType.inApp then
    (st1, some "failed to create notification record")
  else
    let st2 : ServiceState := { st1 with records := st1.records ++ [n] }
    let st3 :=
      if env.updateOk then
        { st2 with records :=
            repoUpdateStatus st2.records n.id NotificationStatus.sent env.clock }
      else st2
    let _broadcastOutcome :=
      if env.hasInAppNotifier then
        match env.notifyResult with
        | Except.error _ => ()
        | Except.ok _ => ()
      else ()
    (st3, none)

/-- The per-channel loop of `Send`: email and push are gated on the global
`EmailEnabled` / `PushEnabled` flags (a disabled channel is skipped with no
record and no error); each channel error is collected tagged with its
channel. -/
def NotificationService.sendChannels (env : SendEnv)
    (prefs : NotificationPreferences) (st : ServiceState) (req : SendRequest) :
    ServiceState × List (NotificationType × String) :=
  req.channels.foldl
    (fun acc channel =>
      match channel with
      | NotificationType.email =>
        if !prefs.emailEnabled then acc
        else
          match NotificationService.sendEmail env acc.1 req with
          | (st2, some e) => (st2, acc.2 ++ [(NotificationType.email, e)])
          | (st2, none) => (st2, acc.2)
      | NotificationType.push =>
        if !prefs.pushEnabled then acc
        else
          match NotificationService.sendPush env acc.1 req with
          | (st2, some e) => (st2, acc.2 ++ [(NotificationType.push, e)])
          | (st2, none) => (st2, acc.2)
      | NotificationType.inApp =>
        match NotificationService.sendInApp env acc.1 req with
        | (st2, some e) => (st2, acc.2 ++ [(NotificationType.inApp, e)])
        | (st2, none) => (st2, acc.2))
    (st, [])

/-- `NotificationService.Send`: resolve preferences, apply the request-level
quiet-hours gate (critical templates `otp_verification` / `password_reset`
bypass it), then run the per-channel loop; the aggregate error is the
non-empty list of per-channel failures (Go formats it as
`notification errors: [...]`). -/
def NotificationService.send (env : SendEnv) (st : ServiceState)
    (req : SendRequest) : ServiceState × Option (List (NotificationType × String)) :=
  let prefs := resolvePrefs env req
  if prefs.IsInQuietHours env.now = true ∧
     req.template ≠ "otp_verification" ∧ req.template ≠ "password_reset" then
    (st, none)
  else
    let res := NotificationService.sendChannels env prefs st req
    (res.1, if res.2.isEmpty then none else some res.2)

/-! ## Connection hub (`internal/infrastructure/websocket/hub.go`)

Go maps are embedded as association lists over `Nat` keys. `setKey`
mirrors map assignment (overwrite the existing binding, append when
absent), `removeKey` mirrors `delete`. The three registry operations below
are the bodies dispatched by the hub's single `Run` control loop. -/

/-- Association-list lookup, modelling a Go map read. -/
def lookupKey {α : Type} (k : Nat) : List (Nat × α) → Option α
  | [] => none
  | (k2, v) :: rest => if k2 = k then some v else lookupKey k rest

/-- Association-list write, modelling Go map assignment. -/
def setKey {α : Type} (k : Nat) (v : α) : List (Nat × α) → List (Nat × α)
  | [] => [(k, v)]
  | (k2, v2) :: rest => if k2 = k then (k, v) :: rest else (k2, v2) :: setKey k v rest

/-- Association-list delete, modelling Go `delete(m, k)`. -/
def removeKey {α : Type} (k : Nat) : List (Nat × α) → List (Nat × α)
  | [] => []
  | (k2, v2) :: rest => if k2 = k then rest else (k2, v2) :: removeKey k rest

/-- One WebSocket `Client`: owning user, the outbound mailbox (the buffered
`Send` channel, of capacity `cap`) and whether that channel has been
closed. The transport handle is opaque and not modelled. -/
structure Conn where
  userId : Nat
  cap : Nat
  mailbox : List String
  closed : Bool
deriving DecidableEq, Repr

/-- Hub state: the user-keyed registry of connection ids (Go's
`map[uuid.UUID]map[*Client]bool`) plus the heap of client objects keyed by
connection id. -/
structure HubState where
  clients : List (Nat × List Nat)
  conns : List (Nat × Conn)
deriving DecidableEq, Repr

/-- `Hub.registerClient`: create the user's bucket when absent and add the
client to it. A client id not backed by a connection object cannot occur
in Go (the argument is the object's pointer) and leaves the state
unchanged. -/
def Hub.registerClient (h : HubState) (cid : Nat) : HubState :=
  match lookupKey cid h.conns with
  | none => h
  | some c =>
    let bucket := (lookupKey c.userId h.clients).getD []
    let bucket2 := if cid ∈ bucket then bucket else bucket ++ [cid]
    { h with clients := setKey c.userId bucket2 h.clients }

/-- `Hub.unregisterClient`: when the client is present in its user's
bucket, remove it, close its mailbox, and drop the bucket entry if it
became empty. -/
def Hub.unregisterClient (h : HubState) (cid : Nat) : HubState :=
  match lookupKey cid h.conns with
  | none => h
  | some c =>
    match lookupKey c.userId h.clients with
    | none => h
    | some bucket =>
      if cid ∈ bucket then
        let bucket2 := bucket.erase cid
        let conns2 := setKey cid { c with closed := true } h.conns
        if bucket2.isEmpty then
          { clients := removeKey c.userId h.clients, conns := conns2 }
        else
          { clients := setKey c.userId bucket2 h.clients, conns := conns2 }
      else h

/-- One iteration of the fan-out loop in `Hub.broadcastToUser`: the
non-blocking `select` enqueues the payload when the mailbox has room;
otherwise it closes the mailbox and deletes the client from its user's
bucket (without removing the bucket entry itself). -/
def Hub.broadcastStep (uid : Nat) (payload : String) (h : HubState)
    (cid : Nat) : HubState :=
  match lookupKey cid h.conns with
  | none => h
  | some c =>
    if c.mailbox.length < c.cap then
      { h with conns := setKey cid { c with mailbox := c.mailbox ++ [payload] } h.conns }
    else
      { clients :=
          match lookupKey uid h.clients with
          | none => h.clients
          | some bucket => setKey uid (bucket.erase cid) h.clients
      , conns := setKey cid { c with closed := true } h.conns }

/-- `Hub.broadcastToUser`: serialize the notification once (`payload`) and
run the fan-out loop over the user's bucket; a user with no bucket is a
silent no-op. (The `json.Marshal` early return is not modelled: marshalling
a `Notification` value cannot fail.) -/
def Hub.broadcastToUser (h : HubState) (uid : Nat) (payload : String) : HubState :=
  match lookupKey uid h.clients with
  | none => h
  | some bucket => bucket.foldl (Hub.broadcastStep uid payload) h

/-- Whether the connection object registered under `cid` has a closed
mailbox (`false` when no such object exists). -/
def connClosedAt (h : HubState) (cid : Nat) : Bool :=
  match lookupKey cid h.conns with
  | some c => c.closed
  | none => false

/-- Registry half of the claimed invariant: every user key maps to a
non-empty bucket. -/
def HubState.bucketsNonempty (h : HubState) : Prop :=
  ∀ p ∈ h.clients, p.2 ≠ []

/-- Mailbox half of the claimed invariant: no registered connection has a
closed mailbox. -/
def HubState.noClosedInRegistry (h : HubState) : Prop :=
  ∀ p ∈ h.clients, ∀ cid ∈ p.2, connClosedAt h cid = false

/-- The Connection Hub registry invariant claimed by the spec. -/
def HubState.Inv (h : HubState) : Prop :=
  h.bucketsNonempty ∧ h.noClosedInRegistry

/-- Structural well-formedness of a hub state: registry keys and
connection ids are duplicate-free, buckets are duplicate-free, and every
registered id is backed by a connection object of the bucket's user. -/
def HubState.WF (h : HubState) : Prop :=
  (h.clients.map Prod.fst).Nodup ∧
  (h.conns.map Prod.fst).Nodup ∧
  ∀ p ∈ h.clients, p.2.Nodup ∧
    ∀ cid ∈ p.2, ∃ c, lookupKey cid h.conns = some c ∧ c.userId = p.1

/-! ## Notification repository (`internal/repository/postgres`, file
`notifications.go`) — the mark-read operation. -/

/-- `NotificationRepository.MarkAsRead`: the SQL
`UPDATE notifications SET read_at = $2, updated_at = $2
 WHERE id = $1 AND read_at IS NULL`,
followed by the Go check that reports `ErrNotFound` when `RowsAffected`
is zero. Returns the updated table and `some errorMessage` on error. -/
def NotificationRepository.MarkAsRead (rows : List Notification) (id : Nat)
    (now : Nat) : List Notification × Option String :=
  let affected := rows.countP fun n => decide (n.id = id ∧ n.readAt = none)
  let rows2 := rows.map fun n =>
    if n.id = id ∧ n.readAt = none then
      { n with readAt := some now, updatedAt := now }
    else n
  if affected = 0 then
    (rows2, some ("notification not found: " ++ toString id))
  else (rows2, none)

/-! ## Firebase push sender (`internal/infrastructure/firebase/client.go`) -/

/-- One entry of `BatchResponse.Responses`: whether the per-token send
succeeded, and — when it failed — whether the provider error is classified
`Unregistered` or `InvalidArgument`. -/
structure FcmSendOutcome where
  success : Bool
  unregisteredOrInvalid : Bool
deriving DecidableEq, Repr

/-- The `BatchResponse` of `SendEachForMulticast`. -/
structure FcmBatchResponse where
  responses : List FcmSendOutcome
deriving DecidableEq, Repr

/-- `BatchResponse.FailureCount`. -/
def FcmBatchResponse.failureCount (r : FcmBatchResponse) : Nat :=
  r.responses.countP fun s => !s.success

/-- Environment of one `Client.SendToUser` call: the outcome of the
device-token query (the repository returns only active tokens) and of the
multicast request itself. -/
structure FirebaseEnv where
  tokensResult : Except String (List String)
  multicastResult : Except String FcmBatchResponse

/-- `Client.SendToUser`: resolve the user's active device tokens, treat an
empty list as a silent success, send one multicast, and deactivate every
token whose per-token response failed with an unregistered/invalid error.
Returns the call result and the list of tokens passed to `Deactivate`. -/
def Client.SendToUser (env : FirebaseEnv) : Except String Unit × List String :=
  match env.tokensResult with
  | Except.error e => (Except.error ("failed to get device tokens: " ++ e), [])
  | Except.ok tokens =>
    if tokens.length = 0 then (Except.ok (), [])
    else
      match env.multicastResult with
      | Except.error e => (Except.error ("failed to send multicast: " ++ e), [])
      | Except.ok response =>
        let deactivated :=
          if response.failureCount > 0 then
            (response.responses.zip tokens).filterMap fun pr =>
              if !pr.1.success ∧ pr.1.unregisteredOrInvalid then some pr.2 else none
          else []
        (Except.ok (), deactivated)

/-! ## Spec-side eligibility (refinement comparison for the dispatch gate) -/

/-- The per-channel eligibility function as the spec words it (for the
refinement comparison only, not translated from the source): the
category-specific override when one is set, else the channel's global
enabled flag. -/
def specChannelEligible (prefs : NotificationPreferences)
    (channel : NotificationType) (category : String) : Bool :=
  match prefs.channelSettings.lookup category with
  | some b => b
  | none =>
    match channel with
    | NotificationType.email => prefs.emailEnabled
    | NotificationType.push => prefs.pushEnabled
    | NotificationType.inApp => true

/-! ## Concrete states for witnesses and counterexamples -/

/-- A concrete well-formed hub state: user 1 has connection 7 (room in its
mailbox) and connection 8 (mailbox at capacity); user 2 has connection 9;
connection 10 exists but is not registered. -/
def hubW : HubState :=
  { clients := [(1, [7, 8]), (2, [9])]
  , conns :=
      [ (7, { userId := 1, cap := 2, mailbox := ["a"], closed := false })
      , (8, { userId := 1, cap := 1, mailbox := ["b"], closed := false })
      , (9, { userId := 2, cap := 1, mailbox := [], closed := false })
      , (10, { userId := 2, cap := 1, mailbox := [], closed := false }) ] }

instance (h : HubState) : Decidable h.bucketsNonempty := by
  unfold HubState.bucketsNonempty
  infer_instance

instance (h : HubState) : Decidable h.noClosedInRegistry := by
  unfold HubState.noClosedInRegistry
  infer_instance

instance (h : HubState) : Decidable h.Inv := by
  unfold HubState.Inv
  infer_instance

/-- A one-user, one-connection hub state whose only mailbox is full. -/
def hubCex : HubState :=
  { clients := [(1, [7])]
  , conns := [(7, { userId := 1, cap := 1, mailbox := ["m"], closed := false })] }

/-- Concrete environment for the orchestrator witnesses: every collaborator
present, email/in-app sends succeed, the push provider fails. -/
def envC1 : SendEnv :=
  { hasPreferencesRepo := false
  , prefsResult := Except.error "no repo"
  , now := { hour := 12, minute := 0 }
  , clock := 100
  , hasEmailSender := true
  , hasPushSender := true
  , hasInAppNotifier := true
  , emailSendResult := Except.ok ()
  , emailSendHTMLResult := Except.ok ()
  , pushSendResult := Except.error "boom"
  , notifyResult := Except.ok ()
  , createOk := fun _ => true
  , updateOk := true }

/-- Concrete request for the orchestrator witnesses. -/
def reqC1 : SendRequest :=
  { userId := 1, email := "a@b.c"
  , channels := [NotificationType.email, NotificationType.push]
  , template := "welcome", title := "t", body := "b", data := [] }

/-- Concrete quiet-hours environment for the C5 witness: preferences with a
22:00–07:00 window, wall clock at 23:30. -/
def envC5 : SendEnv :=
  { hasPreferencesRepo := true
  , prefsResult := Except.ok
      { userId := 1, emailEnabled := true, pushEnabled := true
      , channelSettings := []
      , quietHoursStart := some { hour := 22, minute := 0 }
      , quietHoursEnd := some { hour := 7, minute := 0 }
      , createdAt := 0, updatedAt := 0 }
  , now := { hour := 23, minute := 30 }
  , clock := 100
  , hasEmailSender := true
  , hasPushSender := true
  , hasInAppNotifier := true
  , emailSendResult := Except.ok ()
  , emailSendHTMLResult := Except.ok ()
  , pushSendResult := Except.ok ()
  , notifyResult := Except.ok ()
  , createOk := fun _ => true
  , updateOk := true }

/-- Non-critical request used by the C5 witness. -/
def reqC5 : SendRequest :=
  { userId := 1, email := "a@b.c"
  , channels := [NotificationType.email, NotificationType.push]
  , template := "marketing", title := "t", body := "b", data := [] }

/-- Preferences with email globally disabled but a category override
enabling "marketing". -/
def pC2 : NotificationPreferences :=
  { userId := 1, emailEnabled := false, pushEnabled := true
  , channelSettings := [("marketing", true)]
  , quietHoursStart := none, quietHoursEnd := none
  , createdAt := 0, updatedAt := 0 }

/-- Environment whose preferences repository returns `pC2`. -/
def envC2 : SendEnv :=
  { envC1 with hasPreferencesRepo := true, prefsResult := Except.ok pC2 }

/-- An email-channel request in the overridden "marketing" category. -/
def reqC2 : SendRequest :=
  { userId := 1, email := "a@b.c"
  , channels := [NotificationType.email]
  , template := "marketing", title := "t", body := "b", data := [] }

/-- Multicast batch response in which every per-token send failed (the
first token as unregistered/invalid, the second for another reason). -/
def respC9 : FcmBatchResponse :=
  { responses :=
      [ { success := false, unregisteredOrInvalid := true }
      , { success := false, unregisteredOrInvalid := false } ] }

/-- Firebase environment for the C9 witness: two active tokens, multicast
accepted, all per-token responses failing. -/
def fenvC9 : FirebaseEnv :=
  { tokensResult := Except.ok ["tokA", "tokB"]
  , multicastResult := Except.ok respC9 }

/-- Orchestrator environment whose push oracle is exactly the outcome of
`Client.SendToUser fenvC9`. -/
def envC9 : SendEnv :=
  { envC1 with pushSendResult := (Client.SendToUser fenvC9).1 }

/-- An already-sent in-app row that has not yet been read. -/
def rowC4 : Notification :=
  { id := 1, userId := 2, type := NotificationType.inApp, channel := "alert"
  , title := "t", body := "b", metadata := [], status := NotificationStatus.sent
  , readAt := none, sentAt := some 50, createdAt := 40, updatedAt := 50 }

/-! ## Association-list lemmas -/

theorem lookupKey_setKey_self {α : Type} (k : Nat) (v : α) (l : List (Nat × α)) :
    lookupKey k (setKey k v l) = some v := by
  induction l with
  | nil => simp [setKey, lookupKey]
  | cons hd tl ih =>
    by_cases hE : hd.1 = k
    · simp [setKey, hE, lookupKey]
    · simp [setKey, hE, lookupKey, ih]

theorem lookupKey_setKey_ne {α : Type} (k k2 : Nat) (v : α) (l : List (Nat × α))
    (hne : k2 ≠ k) : lookupKey k (setKey k2 v l) = lookupKey k l := by
  induction l with
  | nil => simp [setKey, lookupKey, hne]
  | cons hd tl ih =>
    by_cases hE : hd.1 = k2
    · simp [setKey, hE, lookupKey, hne]
    · by_cases hK : hd.1 = k
      · simp [setKey, hE, lookupKey, hK, Ne.symm hne]
      · simp [setKey, hE, lookupKey, hK, ih]

theorem lookupKey_mem {α : Type} {k : Nat} {v : α} {l : List (Nat × α)}
    (h : lookupKey k l = some v) : (k, v) ∈ l := by
  induction l with
  | nil => simp [lookupKey] at h
  | cons hd tl ih =>
    by_cases hE : hd.1 = k
    · simp only [lookupKey, if_pos hE] at h
      have hpd : hd = (k, v) := by
        cases hd
        simp_all
      exact List.mem_cons.mpr (Or.inl hpd.symm)
    · simp only [lookupKey, if_neg hE] at h
      exact List.mem_cons_of_mem _ (ih h)

theorem lookupKey_none_not_mem {α : Type} {k : Nat} {l : List (Nat × α)}
    (h : lookupKey k l = none) (v : α) : (k, v) ∉ l := by
  induction l with
  | nil => simp
  | cons hd tl ih =>
    by_cases hE : hd.1 = k
    · simp [lookupKey, hE] at h
    · simp only [lookupKey, if_neg hE] at h
      intro hmem
      rcases List.mem_cons.mp hmem with h1 | h1
      · exact hE (by rw [← h1])
      · exact ih h h1

theorem mem_setKey {α : Type} {p : Nat × α} {k : Nat} {v : α} {l : List (Nat × α)}
    (h : p ∈ setKey k v l) : p = (k, v) ∨ p ∈ l := by
  induction l with
  | nil => simp [setKey] at h; simp [h]
  | cons hd tl ih =>
    by_cases hE : hd.1 = k
    · simp only [setKey, if_pos hE] at h
      rcases List.mem_cons.mp h with h1 | h1
      · exact Or.inl h1
      · exact Or.inr (List.mem_cons_of_mem _ h1)
    · simp only [setKey, if_neg hE] at h
      rcases List.mem_cons.mp h with h1 | h1
      · exact Or.inr (h1 ▸ List.mem_cons_self _ _)
      · rcases ih h1 with h2 | h2
        · exact Or.inl h2
        · exact Or.inr (List.mem_cons_of_mem _ h2)

theorem mem_setKey_nodup {α : Type} {p : Nat × α} {k : Nat} {v : α}
    {l : List (Nat × α)} (hnd : (l.map Prod.fst).Nodup)
    (h : p ∈ setKey k v l) : p = (k, v) ∨ (p ∈ l ∧ p.1 ≠ k) := by
  induction l with
  | nil => simp [setKey] at h; simp [h]
  | cons hd tl ih =>
    rw [List.map_cons, List.nodup_cons] at hnd
    by_cases hE : hd.1 = k
    · simp only [setKey, if_pos hE] at h
      rcases List.mem_cons.mp h with h1 | h1
      · exact Or.inl h1
      · refine Or.inr ⟨List.mem_cons_of_mem _ h1, ?_⟩
        intro hpk
        exact hnd.1 (hE ▸ hpk ▸ List.mem_map_of_mem Prod.fst h1)
    · simp only [setKey, if_neg hE] at h
      rcases List.mem_cons.mp h with h1 | h1
      · exact Or.inr ⟨h1 ▸ List.mem_cons_self _ _, by rw [h1]; exact hE⟩
      · rcases ih hnd.2 h1 with h2 | h2
        · exact Or.inl h2
        · exact Or.inr ⟨List.mem_cons_of_mem _ h2.1, h2.2⟩

theorem mem_removeKey {α : Type} {p : Nat × α} {k : Nat} {l : List (Nat × α)}
    (h : p ∈ removeKey k l) : p ∈ l := by
  induction l with
  | nil => simp [removeKey] at h
  | cons hd tl ih =>
    by_cases hE : hd.1 = k
    · simp only [removeKey, if_pos hE] at h
      exact List.mem_cons_of_mem _ h
    · simp only [removeKey, if_neg hE] at h
      rcases List.mem_cons.mp h with h1 | h1
      · exact h1 ▸ List.mem_cons_self _ _
      · exact List.mem_cons_of_mem _ (ih h1)

theorem mem_removeKey_nodup {α : Type} {p : Nat × α} {k : Nat}
    {l : List (Nat × α)} (hnd : (l.map Prod.fst).Nodup)
    (h : p ∈ removeKey k l) : p ∈ l ∧ p.1 ≠ k := by
  induction l with
  | nil => simp [removeKey] at h
  | cons hd tl ih =>
    rw [List.map_cons, List.nodup_cons] at hnd
    by_cases hE : hd.1 = k
    · simp only [removeKey, if_pos hE] at h
      refine ⟨List.mem_cons_of_mem _ h, ?_⟩
      intro hpk
      exact hnd.1 (hE ▸ hpk ▸ List.mem_map_of_mem Prod.fst h)
    · simp only [removeKey, if_neg hE] at h
      rcases List.mem_cons.mp h with h1 | h1
      · exact ⟨h1 ▸ List.mem_cons_self _ _, by rw [h1]; exact hE⟩
      · rcases ih hnd.2 h1 with ⟨h2, h3⟩
        exact ⟨List.mem_cons_of_mem _ h2, h3⟩

theorem map_fst_setKey_present {α : Type} {k : Nat} {v0 : α} {l : List (Nat × α)}
    (h : lookupKey k l = some v0) (v : α) :
    (setKey k v l).map Prod.fst = l.map Prod.fst := by
  induction l with
  | nil => simp [lookupKey] at h
  | cons hd tl ih =>
    by_cases hE : hd.1 = k
    · simp [setKey, hE]
    · simp only [lookupKey, if_neg hE] at h
      simp [setKey, hE, ih h]

theorem nodup_map_fst_removeKey {α : Type} {k : Nat} {l : List (Nat × α)}
    (hnd : (l.map Prod.fst).Nodup) :
    ((removeKey k l).map Prod.fst).Nodup := by
  induction l with
  | nil => simp [removeKey]
  | cons hd tl ih =>
    rw [List.map_cons, List.nodup_cons] at hnd
    by_cases hE : hd.1 = k
    · simp only [removeKey, if_pos hE]
      exact hnd.2
    · simp only [removeKey, if_neg hE, List.map_cons, List.nodup_cons]
      refine ⟨?_, ih hnd.2⟩
      intro hmem
      rcases List.mem_map.mp hmem with ⟨q, hq, hq2⟩
      exact hnd.1 (hq2 ▸ List.mem_map_of_mem Prod.fst (mem_removeKey hq))

/-! ## Hub lemmas -/

theorem broadcastStep_none (uid : Nat) (payload : String) (h : HubState)
    (cid : Nat) (hc : lookupKey cid h.conns = none) :
    Hub.broadcastStep uid payload h cid = h := by
  unfold Hub.broadcastStep
  rw [hc]

theorem broadcastStep_room (uid : Nat) (payload : String) (h : HubState)
    (cid : Nat) (c : Conn) (hc : lookupKey cid h.conns = some c)
    (hroom : c.mailbox.length < c.cap) :
    Hub.broadcastStep uid payload h cid =
      { h with conns := setKey cid { c with mailbox := c.mailbox ++ [payload] } h.conns } := by
  unfold Hub.broadcastStep
  rw [hc]
  simp [hroom]

theorem broadcastStep_full (uid : Nat) (payload : String) (h : HubState)
    (cid : Nat) (c : Conn) (hc : lookupKey cid h.conns = some c)
    (hroom : ¬ c.mailbox.length < c.cap) :
    Hub.broadcastStep uid payload h cid =
      { clients :=
          match lookupKey uid h.clients with
          | none => h.clients
          | some bucket => setKey uid (bucket.erase cid) h.clients
      , conns := setKey cid { c with closed := true } h.conns } := by
  unfold Hub.broadcastStep
  rw [hc]
  simp [hroom]

theorem broadcastStep_preserves (uid : Nat) (payload : String) (h : HubState)
    (cid : Nat) (hWF : h.WF) (hnc : h.noClosedInRegistry)
    (huser : ∀ c, lookupKey cid h.conns = some c → c.userId = uid) :
    (Hub.broadcastStep uid payload h cid).WF ∧
    (Hub.broadcastStep uid payload h cid).noClosedInRegistry ∧
    (∀ cid2 c2, lookupKey cid2 (Hub.broadcastStep uid payload h cid).conns = some c2 →
      ∃ c0, lookupKey cid2 h.conns = some c0 ∧ c2.userId = c0.userId) := by
  cases hc : lookupKey cid h.conns with
  | none =>
    rw [broadcastStep_none uid payload h cid hc]
    exact ⟨hWF, hnc, fun cid2 c2 h2 => ⟨c2, h2, rfl⟩⟩
  | some c =>
    by_cases hroom : c.mailbox.length < c.cap
    · rw [broadcastStep_room uid payload h cid c hc hroom]
      refine ⟨⟨hWF.1, ?_, ?_⟩, ?_, ?_⟩
      · rw [map_fst_setKey_present hc]
        exact hWF.2.1
      · intro p hp
        refine ⟨(hWF.2.2 p hp).1, ?_⟩
        intro cid2 hcid2
        rcases (hWF.2.2 p hp).2 cid2 hcid2 with ⟨c0, h0, hu0⟩
        by_cases hcc : cid2 = cid
        · subst hcc
          refine ⟨{ c with mailbox := c.mailbox ++ [payload] }, lookupKey_setKey_self _ _ _, ?_⟩
          have : c0 = c := by rw [h0] at hc; exact Option.some.inj hc
          subst this
          exact hu0
        · exact ⟨c0, by rw [lookupKey_setKey_ne _ _ _ _ (fun hE => hcc hE.symm)]; exact h0, hu0⟩
      · intro p hp cid2 hcid2
        by_cases hcc : cid2 = cid
        · subst hcc
          have hold := hnc p hp cid2 hcid2
          simp only [connClosedAt, hc] at hold
          simp only [connClosedAt, lookupKey_setKey_self]
          exact hold
        · have hold := hnc p hp cid2 hcid2
          simp only [connClosedAt] at hold ⊢
          rw [lookupKey_setKey_ne _ _ _ _ (fun hE => hcc hE.symm)]
          exact hold
      · intro cid2 c2 h2
        by_cases hcc : cid2 = cid
        · subst hcc
          rw [lookupKey_setKey_self] at h2
          exact ⟨c, hc, by rw [← Option.some.inj h2]⟩
        · rw [lookupKey_setKey_ne _ _ _ _ (fun hE => hcc hE.symm)] at h2
          exact ⟨c2, h2, rfl⟩
    · rw [broadcastStep_full uid payload h cid c hc hroom]
      have huid : c.userId = uid := huser c hc
      have hthird : ∀ cid2 c2,
          lookupKey cid2 (setKey cid { c with closed := true } h.conns) = some c2 →
          ∃ c0, lookupKey cid2 h.conns = some c0 ∧ c2.userId = c0.userId := by
        intro cid2 c2 h2
        by_cases hcc : cid2 = cid
        · subst hcc
          rw [lookupKey_setKey_self] at h2
          exact ⟨c, hc, by rw [← Option.some.inj h2]⟩
        · rw [lookupKey_setKey_ne _ _ _ _ (fun hE => hcc hE.symm)] at h2
          exact ⟨c2, h2, rfl⟩
      cases hub : lookupKey uid h.clients with
      | none =>
        simp only [hub]
        have hnotuid : ∀ p, p ∈ h.clients → p.1 ≠ uid := by
          intro p hp hpe
          exact lookupKey_none_not_mem hub p.2 (by rw [← hpe]; exact hp)
        refine ⟨⟨hWF.1, ?_, ?_⟩, ?_, hthird⟩
        · rw [map_fst_setKey_present hc]
          exact hWF.2.1
        · intro p hp
          refine ⟨(hWF.2.2 p hp).1, ?_⟩
          intro cid2 hcid2
          rcases (hWF.2.2 p hp).2 cid2 hcid2 with ⟨c0, h0, hu0⟩
          by_cases hcc : cid2 = cid
          · subst hcc
            have : c0 = c := by rw [h0] at hc; exact Option.some.inj hc
            subst this
            exact absurd (hu0.symm.trans huid) (hnotuid p hp)
          · exact ⟨c0, by rw [lookupKey_setKey_ne _ _ _ _ (fun hE => hcc hE.symm)]; exact h0, hu0⟩
        · intro p hp cid2 hcid2
          by_cases hcc : cid2 = cid
          · subst hcc
            rcases (hWF.2.2 p hp).2 cid2 hcid2 with ⟨c0, h0, hu0⟩
            have : c0 = c := by rw [h0] at hc; exact Option.some.inj hc
            subst this
            exact absurd (hu0.symm.trans huid) (hnotuid p hp)
          · have hold := hnc p hp cid2 hcid2
            simp only [connClosedAt] at hold ⊢
            rw [lookupKey_setKey_ne _ _ _ _ (fun hE => hcc hE.symm)]
            exact hold
      | some bucket =>
        simp only [hub]
        have hbmem : (uid, bucket) ∈ h.clients := lookupKey_mem hub
        have hbnodup : bucket.Nodup := (hWF.2.2 (uid, bucket) hbmem).1
        refine ⟨⟨?_, ?_, ?_⟩, ?_, hthird⟩
        · rw [map_fst_setKey_present hub]
          exact hWF.1
        · rw [map_fst_setKey_present hc]
          exact hWF.2.1
        · intro p hp
          rcases mem_setKey_nodup hWF.1 hp with hp1 | ⟨hp1, hp2⟩
          · subst hp1
            refine ⟨hbnodup.erase cid, ?_⟩
            intro cid2 hcid2
            have hcid2b := hbnodup.mem_erase_iff.mp hcid2
            rcases (hWF.2.2 (uid, bucket) hbmem).2 cid2 hcid2b.2 with ⟨c0, h0, hu0⟩
            exact ⟨c0, by
              rw [lookupKey_setKey_ne _ _ _ _ (fun hE => hcid2b.1 hE.symm)]
              exact h0, hu0⟩
          · refine ⟨(hWF.2.2 p hp1).1, ?_⟩
            intro cid2 hcid2
            rcases (hWF.2.2 p hp1).2 cid2 hcid2 with ⟨c0, h0, hu0⟩
            by_cases hcc : cid2 = cid
            · subst hcc
              have : c0 = c := by rw [h0] at hc; exact Option.some.inj hc
              subst this
              exact absurd (hu0.symm.trans huid) hp2
            · exact ⟨c0, by rw [lookupKey_setKey_ne _ _ _ _ (fun hE => hcc hE.symm)]; exact h0, hu0⟩
        · intro p hp cid2 hcid2
          rcases mem_setKey_nodup hWF.1 hp with hp1 | ⟨hp1, hp2⟩
          · subst hp1
            have hcid2b := hbnodup.mem_erase_iff.mp hcid2
            have hold := hnc (uid, bucket) hbmem cid2 hcid2b.2
            simp only [connClosedAt] at hold ⊢
            rw [lookupKey_setKey_ne _ _ _ _ (fun hE => hcid2b.1 hE.symm)]
            exact hold
          · by_cases hcc : cid2 = cid
            · subst hcc
              rcases (hWF.2.2 p hp1).2 cid2 hcid2 with ⟨c0, h0, hu0⟩
              have : c0 = c := by rw [h0] at hc; exact Option.some.inj hc
              subst this
              exact absurd (hu0.symm.trans huid) hp2
            · have hold := hnc p hp1 cid2 hcid2
              simp only [connClosedAt] at hold ⊢
              rw [lookupKey_setKey_ne _ _ _ _ (fun hE => hcc hE.symm)]
              exact hold

theorem broadcastFold_preserves (uid : Nat) (payload : String) (l : List Nat)
    (h : HubState) (hWF : h.WF) (hnc : h.noClosedInRegistry)
    (huser : ∀ cid ∈ l, ∀ c, lookupKey cid h.conns = some c → c.userId = uid) :
    (l.foldl (Hub.broadcastStep uid payload) h).WF ∧
    (l.foldl (Hub.broadcastStep uid payload) h).noClosedInRegistry := by
  induction l generalizing h with
  | nil => exact ⟨hWF, hnc⟩
  | cons hd tl ih =>
    rcases broadcastStep_preserves uid payload h hd hWF hnc
      (huser hd (List.mem_cons_self _ _)) with ⟨hWF2, hnc2, htrace⟩
    refine ih (Hub.broadcastStep uid payload h hd) hWF2 hnc2 ?_
    intro cid hcid c hc
    rcases htrace cid c hc with ⟨c0, h0, hu0⟩
    rw [hu0]
    exact huser cid (List.mem_cons_of_mem _ hcid) c0 h0

theorem broadcastStep_conns_other (uid : Nat) (payload : String) (h : HubState)
    (cid cid2 : Nat) (hne : cid2 ≠ cid) :
    lookupKey cid2 (Hub.broadcastStep uid payload h cid).conns =
      lookupKey cid2 h.conns := by
  cases hc : lookupKey cid h.conns with
  | none => rw [broadcastStep_none uid payload h cid hc]
  | some c =>
    by_cases hroom : c.mailbox.length < c.cap
    · rw [broadcastStep_room uid payload h cid c hc hroom]
      exact lookupKey_setKey_ne _ _ _ _ (fun hE => hne hE.symm)
    · rw [broadcastStep_full uid payload h cid c hc hroom]
      exact lookupKey_setKey_ne _ _ _ _ (fun hE => hne hE.symm)

theorem broadcastFold_conns_other (uid : Nat) (payload : String) (l : List Nat)
    (h : HubState) (cid : Nat) (hn : cid ∉ l) :
    lookupKey cid (l.foldl (Hub.broadcastStep uid payload) h).conns =
      lookupKey cid h.conns := by
  induction l generalizing h with
  | nil => rfl
  | cons hd tl ih =>
    have hne : cid ≠ hd := fun hE => hn (hE ▸ List.mem_cons_self _ _)
    rw [List.foldl_cons, ih _ (fun hmem => hn (List.mem_cons_of_mem _ hmem))]
    exact broadcastStep_conns_other uid payload h hd cid hne

theorem broadcastStep_clients_other (uid : Nat) (payload : String) (h : HubState)
    (cid u : Nat) (hu : u ≠ uid) :
    lookupKey u (Hub.broadcastStep uid payload h cid).clients =
      lookupKey u h.clients := by
  cases hc : lookupKey cid h.conns with
  | none => rw [broadcastStep_none uid payload h cid hc]
  | some c =>
    by_cases hroom : c.mailbox.length < c.cap
    · rw [broadcastStep_room uid payload h cid c hc hroom]
    · rw [broadcastStep_full uid payload h cid c hc hroom]
      cases hub : lookupKey uid h.clients with
      | none => rfl
      | some bucket =>
        simp only
        exact lookupKey_setKey_ne _ _ _ _ (fun hE => hu hE.symm)

theorem broadcastFold_clients_other (uid : Nat) (payload : String) (l : List Nat)
    (h : HubState) (u : Nat) (hu : u ≠ uid) :
    lookupKey u (l.foldl (Hub.broadcastStep uid payload) h).clients =
      lookupKey u h.clients := by
  induction l generalizing h with
  | nil => rfl
  | cons hd tl ih =>
    rw [List.foldl_cons, ih _]
    exact broadcastStep_clients_other uid payload h hd u hu

theorem broadcastStep_bucket_mem (uid : Nat) (payload : String) (h : HubState)
    (cid cid2 : Nat) (b : List Nat) (hne : cid2 ≠ cid)
    (hb : lookupKey uid h.clients = some b) :
    ∃ b2, lookupKey uid (Hub.broadcastStep uid payload h cid).clients = some b2 ∧
      (cid2 ∈ b2 ↔ cid2 ∈ b) ∧ (b.Nodup → b2.Nodup) := by
  cases hc : lookupKey cid h.conns with
  | none =>
    rw [broadcastStep_none uid payload h cid hc]
    exact ⟨b, hb, Iff.rfl, id⟩
  | some c =>
    by_cases hroom : c.mailbox.length < c.cap
    · rw [broadcastStep_room uid payload h cid c hc hroom]
      exact ⟨b, hb, Iff.rfl, id⟩
    · rw [broadcastStep_full uid payload h cid c hc hroom]
      rw [hb]
      exact ⟨b.erase cid, lookupKey_setKey_self _ _ _,
        List.mem_erase_of_ne hne, fun hnd => hnd.erase _⟩

theorem broadcastFold_bucket_mem (uid : Nat) (payload : String) (l : List Nat)
    (h : HubState) (cid : Nat) (b : List Nat) (hn : cid ∉ l)
    (hb : lookupKey uid h.clients = some b) :
    ∃ b2, lookupKey uid (l.foldl (Hub.broadcastStep uid payload) h).clients = some b2 ∧
      (cid ∈ b2 ↔ cid ∈ b) ∧ (b.Nodup → b2.Nodup) := by
  induction l generalizing h b with
  | nil => exact ⟨b, hb, Iff.rfl, id⟩
  | cons hd tl ih =>
    have hne : cid ≠ hd := fun hE => hn (hE ▸ List.mem_cons_self _ _)
    rcases broadcastStep_bucket_mem uid payload h hd cid b hne hb with
      ⟨b1, hb1, hiff1, hnd1⟩
    rcases ih (Hub.broadcastStep uid payload h hd) b1
      (fun hmem => hn (List.mem_cons_of_mem _ hmem)) hb1 with ⟨b2, hb2, hiff2, hnd2⟩
    exact ⟨b2, hb2, hiff2.trans hiff1, fun hnd => hnd2 (hnd1 hnd)⟩

theorem broadcastFold_target (uid : Nat) (payload : String) (l : List Nat)
    (h : HubState) (cid : Nat) (c : Conn) (b : List Nat)
    (hl : l.Nodup) (hmem : cid ∈ l)
    (hc : lookupKey cid h.conns = some c)
    (hb : lookupKey uid h.clients = some b) (hbn : b.Nodup) (hcb : cid ∈ b) :
    (c.mailbox.length < c.cap →
       lookupKey cid (l.foldl (Hub.broadcastStep uid payload) h).conns =
         some { c with mailbox := c.mailbox ++ [payload] } ∧
       ∃ b2, lookupKey uid (l.foldl (Hub.broadcastStep uid payload) h).clients = some b2 ∧
         cid ∈ b2) ∧
    (¬ c.mailbox.length < c.cap →
       lookupKey cid (l.foldl (Hub.broadcastStep uid payload) h).conns =
         some { c with closed := true } ∧
       ∃ b2, lookupKey uid (l.foldl (Hub.broadcastStep uid payload) h).clients = some b2 ∧
         cid ∉ b2) := by
  induction l generalizing h b with
  | nil => simp at hmem
  | cons hd tl ih =>
    rw [List.nodup_cons] at hl
    by_cases hhd : hd = cid
    · subst hhd
      have htl : hd ∉ tl := hl.1
      constructor
      · intro hroom
        rw [List.foldl_cons, broadcastStep_room uid payload h hd c hc hroom]
        constructor
        · rw [broadcastFold_conns_other uid payload tl _ hd htl]
          exact lookupKey_setKey_self _ _ _
        · rcases broadcastFold_bucket_mem uid payload tl
            { h with conns := setKey hd { c with mailbox := c.mailbox ++ [payload] } h.conns }
            hd b htl hb with ⟨b2, hb2, hiff, _⟩
          exact ⟨b2, hb2, hiff.mpr hcb⟩
      · intro hroom
        rw [List.foldl_cons, broadcastStep_full uid payload h hd c hc hroom]
        constructor
        · rw [broadcastFold_conns_other uid payload tl _ hd htl]
          exact lookupKey_setKey_self _ _ _
        · have hb2 : lookupKey uid
              ({ clients :=
                   match lookupKey uid h.clients with
                   | none => h.clients
                   | some bucket => setKey uid (bucket.erase hd) h.clients
               , conns := setKey hd { c with closed := true } h.conns } :
                 HubState).clients = some (b.erase hd) := by
            rw [hb]
            exact lookupKey_setKey_self _ _ _
          rcases broadcastFold_bucket_mem uid payload tl _ hd (b.erase hd) htl hb2 with
            ⟨b2, hb3, hiff, _⟩
          refine ⟨b2, hb3, ?_⟩
          intro hmem2
          exact (hbn.mem_erase_iff.mp (hiff.mp hmem2)).1 rfl
    · have hcid : cid ∈ tl := by
        rcases List.mem_cons.mp hmem with h1 | h1
        · exact absurd h1.symm hhd
        · exact h1
      have hne : cid ≠ hd := fun hE => hhd hE.symm
      rw [List.foldl_cons]
      have hc2 : lookupKey cid (Hub.broadcastStep uid payload h hd).conns = some c := by
        rw [broadcastStep_conns_other uid payload h hd cid hne]
        exact hc
      rcases broadcastStep_bucket_mem uid payload h hd cid b hne hb with
        ⟨b1, hb1, hiff1, hnd1⟩
      exact ih _ b1 hl.2 hcid hc2 hb1 (hnd1 hbn) (hiff1.mpr hcb)

theorem registerClient_eq (h : HubState) (cid : Nat) (c : Conn)
    (hc : lookupKey cid h.conns = some c) :
    Hub.registerClient h cid =
      { h with clients := setKey c.userId (if cid ∈ (lookupKey c.userId h.clients).getD [] then (lookupKey c.userId h.clients).getD [] else (lookupKey c.userId h.clients).getD [] ++ [cid]) h.clients } := by
  unfold Hub.registerClient
  rw [hc]

theorem unregisterClient_none (h : HubState) (cid : Nat)
    (hc : lookupKey cid h.conns = none) :
    Hub.unregisterClient h cid = h := by
  unfold Hub.unregisterClient
  rw [hc]

theorem unregisterClient_nobucket (h : HubState) (cid : Nat) (c : Conn)
    (hc : lookupKey cid h.conns = some c)
    (hb : lookupKey c.userId h.clients = none) :
    Hub.unregisterClient h cid = h := by
  unfold Hub.unregisterClient
  rw [hc]
  simp [hb]

theorem unregisterClient_notmem (h : HubState) (cid : Nat) (c : Conn)
    (bucket : List Nat) (hc : lookupKey cid h.conns = some c)
    (hb : lookupKey c.userId h.clients = some bucket) (hmem : cid ∉ bucket) :
    Hub.unregisterClient h cid = h := by
  unfold Hub.unregisterClient
  rw [hc]
  simp [hb, hmem]

theorem unregisterClient_eq_empty (h : HubState) (cid : Nat) (c : Conn)
    (bucket : List Nat) (hc : lookupKey cid h.conns = some c)
    (hb : lookupKey c.userId h.clients = some bucket) (hmem : cid ∈ bucket)
    (hemp : (bucket.erase cid).isEmpty) :
    Hub.unregisterClient h cid =
      { clients := removeKey c.userId h.clients
      , conns := setKey cid { c with closed := true } h.conns } := by
  unfold Hub.unregisterClient
  rw [hc]
  simp [hb, hmem, hemp]

theorem unregisterClient_eq_nonempty (h : HubState) (cid : Nat) (c : Conn)
    (bucket : List Nat) (hc : lookupKey cid h.conns = some c)
    (hb : lookupKey c.userId h.clients = some bucket) (hmem : cid ∈ bucket)
    (hemp : ¬ (bucket.erase cid).isEmpty) :
    Hub.unregisterClient h cid =
      { clients := setKey c.userId (bucket.erase cid) h.clients
      , conns := setKey cid { c with closed := true } h.conns } := by
  unfold Hub.unregisterClient
  rw [hc]
  simp [hb, hmem, hemp]

theorem registerClient_preserves_inv (h : HubState) (cid : Nat) (c : Conn)
    (hInv : h.Inv) (hc : lookupKey cid h.conns = some c)
    (hopen : c.closed = false) : (Hub.registerClient h cid).Inv := by
  rw [registerClient_eq h cid c hc]
  constructor
  · intro p hp
    rcases mem_setKey hp with hp1 | hp1
    · rw [hp1]
      by_cases hm : cid ∈ (lookupKey c.userId h.clients).getD []
      · simp only [if_pos hm]
        exact List.ne_nil_of_mem hm
      · simp only [if_neg hm]
        simp
    · exact hInv.1 p hp1
  · intro p hp cid2 hcid2
    rcases mem_setKey hp with hp1 | hp1
    · rw [hp1] at hcid2
      have hcases : cid2 = cid ∨ cid2 ∈ (lookupKey c.userId h.clients).getD [] := by
        by_cases hm : cid ∈ (lookupKey c.userId h.clients).getD []
        · simp only [if_pos hm] at hcid2
          exact Or.inr hcid2
        · simp only [if_neg hm] at hcid2
          rcases List.mem_append.mp hcid2 with h1 | h1
          · exact Or.inr h1
          · exact Or.inl (List.mem_singleton.mp h1)
      rcases hcases with h1 | h1
      · subst h1
        simp only [connClosedAt, hc]
        exact hopen
      · cases hub : lookupKey c.userId h.clients with
        | none => rw [hub] at h1; simp at h1
        | some b =>
          rw [hub] at h1
          simp only [Option.getD_some] at h1
          exact hInv.2 (c.userId, b) (lookupKey_mem hub) cid2 h1
    · exact hInv.2 p hp1 cid2 hcid2

theorem unregisterClient_preserves_inv (h : HubState) (cid : Nat)
    (hWF : h.WF) (hInv : h.Inv) : (Hub.unregisterClient h cid).Inv := by
  cases hc : lookupKey cid h.conns with
  | none =>
    rw [unregisterClient_none h cid hc]
    exact hInv
  | some c =>
    cases hb : lookupKey c.userId h.clients with
    | none =>
      rw [unregisterClient_nobucket h cid c hc hb]
      exact hInv
    | some bucket =>
      by_cases hmem : cid ∈ bucket
      · have hbmem : (c.userId, bucket) ∈ h.clients := lookupKey_mem hb
        have hbnodup : bucket.Nodup := (hWF.2.2 _ hbmem).1
        by_cases hemp : (bucket.erase cid).isEmpty
        · rw [unregisterClient_eq_empty h cid c bucket hc hb hmem hemp]
          constructor
          · intro p hp
            exact hInv.1 p (mem_removeKey hp)
          · intro p hp cid2 hcid2
            have hpr := mem_removeKey_nodup hWF.1 hp
            by_cases hcc : cid2 = cid
            · subst hcc
              rcases (hWF.2.2 p hpr.1).2 cid2 hcid2 with ⟨c0, h0, hu0⟩
              have hc0 : c0 = c := by
                rw [h0] at hc
                exact Option.some.inj hc
              subst hc0
              exact absurd hu0.symm hpr.2
            · have hold := hInv.2 p hpr.1 cid2 hcid2
              simp only [connClosedAt] at hold ⊢
              rw [lookupKey_setKey_ne _ _ _ _ (fun hE => hcc hE.symm)]
              exact hold
        · rw [unregisterClient_eq_nonempty h cid c bucket hc hb hmem hemp]
          constructor
          · intro p hp
            rcases mem_setKey hp with hp1 | hp1
            · rw [hp1]
              intro hE
              have hE2 : (bucket.erase cid).isEmpty = true := by
                have hE3 : bucket.erase cid = [] := hE
                rw [hE3]
                rfl
              exact hemp hE2
            · exact hInv.1 p hp1
          · intro p hp cid2 hcid2
            rcases mem_setKey_nodup hWF.1 hp with hp1 | ⟨hp1, hp2⟩
            · rw [hp1] at hcid2
              have hx := hbnodup.mem_erase_iff.mp hcid2
              have hold := hInv.2 _ hbmem cid2 hx.2
              simp only [connClosedAt] at hold ⊢
              rw [lookupKey_setKey_ne _ _ _ _ (fun hE => hx.1 hE.symm)]
              exact hold
            · by_cases hcc : cid2 = cid
              · subst hcc
                rcases (hWF.2.2 p hp1).2 cid2 hcid2 with ⟨c0, h0, hu0⟩
                have hc0 : c0 = c := by
                  rw [h0] at hc
                  exact Option.some.inj hc
                subst hc0
                exact absurd hu0.symm hp2
              · have hold := hInv.2 p hp1 cid2 hcid2
                simp only [connClosedAt] at hold ⊢
                rw [lookupKey_setKey_ne _ _ _ _ (fun hE => hcc hE.symm)]
                exact hold
      · rw [unregisterClient_notmem h cid c bucket hc hb hmem]
        exact hInv

theorem broadcastToUser_preserves_noClosed (h : HubState) (uid : Nat)
    (payload : String) (hWF : h.WF) (hInv : h.Inv) :
    (Hub.broadcastToUser h uid payload).noClosedInRegistry := by
  unfold Hub.broadcastToUser
  cases hub : lookupKey uid h.clients with
  | none => exact hInv.2
  | some bucket =>
    refine (broadcastFold_preserves uid payload bucket h hWF hInv.2 ?_).2
    intro cid hcid c hc
    rcases (hWF.2.2 _ (lookupKey_mem hub)).2 cid hcid with ⟨c0, h0, hu0⟩
    have hc0 : c0 = c := by
      rw [h0] at hc
      exact Option.some.inj hc
    subst hc0
    exact hu0

theorem hubW_WF : hubW.WF := by
  refine ⟨by decide, by decide, ?_⟩
  intro p hp
  simp only [hubW, List.mem_cons, List.not_mem_nil, or_false] at hp
  rcases hp with hp | hp
  · subst hp
    refine ⟨by decide, ?_⟩
    intro cid hcid
    simp only [List.mem_cons, List.not_mem_nil, or_false] at hcid
    rcases hcid with hcid | hcid
    · subst hcid
      exact ⟨{ userId := 1, cap := 2, mailbox := ["a"], closed := false }, rfl, rfl⟩
    · subst hcid
      exact ⟨{ userId := 1, cap := 1, mailbox := ["b"], closed := false }, rfl, rfl⟩
  · subst hp
    refine ⟨by decide, ?_⟩
    intro cid hcid
    simp only [List.mem_cons, List.not_mem_nil, or_false] at hcid
    subst hcid
    exact ⟨{ userId := 2, cap := 1, mailbox := [], closed := false }, rfl, rfl⟩

/-! ## Hub claim theorems -/

/-- C3 counterexample: the invariant holds of `hubCex`, yet broadcasting to
user 1 hits the mailbox-overflow removal path, which deletes connection 7
from the bucket but leaves the now-empty bucket registered — so the
operation does not preserve the invariant. -/
theorem hub_registry_invariant_cex :
    hubCex.Inv ∧
    Hub.broadcastToUser hubCex 1 "x" =
      { clients := [(1, [])]
      , conns := [(7, { userId := 1, cap := 1, mailbox := ["m"], closed := true })] } ∧
    ¬ (Hub.broadcastToUser hubCex 1 "x").Inv := by
  refine ⟨by decide, by decide, ?_⟩
  intro hInv
  have h1 := hInv.1 (1, ([] : List Nat))
  have h2 : (1, ([] : List Nat)) ∈ (Hub.broadcastToUser hubCex 1 "x").clients := by
    decide
  exact h1 h2 rfl

/-- C3 (amended): registering an open connection and unregistering any
connection preserve the full registry invariant (non-empty buckets, no
closed connection registered); the broadcast fan-out — including its
mailbox-overflow removal path — preserves the no-closed-connection half of
the invariant, but not the non-empty-bucket half (see the counterexample:
removing a user's last slow connection leaves an empty bucket behind). -/
theorem hub_registry_invariant_amended :
    (∀ (h : HubState) (cid : Nat) (c : Conn),
        h.Inv → lookupKey cid h.conns = some c → c.closed = false →
        (Hub.registerClient h cid).Inv) ∧
    (∀ (h : HubState) (cid : Nat), h.WF → h.Inv →
        (Hub.unregisterClient h cid).Inv) ∧
    (∀ (h : HubState) (uid : Nat) (payload : String), h.WF → h.Inv →
        (Hub.broadcastToUser h uid payload).noClosedInRegistry) :=
  ⟨fun h cid c hInv hc hopen => registerClient_preserves_inv h cid c hInv hc hopen,
   fun h cid hWF hInv => unregisterClient_preserves_inv h cid hWF hInv,
   fun h uid payload hWF hInv => broadcastToUser_preserves_noClosed h uid payload hWF hInv⟩

/-- Witness for `hub_registry_invariant_amended` on the concrete state
`hubW`. -/
theorem hub_registry_invariant_amended_witness :
    (Hub.registerClient hubW 10).Inv ∧ (Hub.unregisterClient hubW 8).Inv ∧
    (Hub.broadcastToUser hubW 1 "x").noClosedInRegistry := by
  have h := hub_registry_invariant_amended
  exact ⟨h.1 hubW 10 { userId := 2, cap := 1, mailbox := [], closed := false }
          (by decide) rfl rfl,
         h.2.1 hubW 8 hubW_WF (by decide),
         h.2.2 hubW 1 "x" hubW_WF (by decide)⟩

/-- C7: fan-out to a user's bucket treats each connection independently: a
connection with mailbox room receives the serialized payload and stays
registered; a connection whose mailbox is at capacity is closed and removed
from the bucket; buckets of other users and connections outside the bucket
are untouched. -/
theorem broadcast_fanout_per_connection (h : HubState) (uid : Nat)
    (payload : String) (bucket : List Nat)
    (hWF : h.WF) (hb : lookupKey uid h.clients = some bucket) :
    (∀ cid ∈ bucket, ∀ c, lookupKey cid h.conns = some c →
       (c.mailbox.length < c.cap →
          lookupKey cid (Hub.broadcastToUser h uid payload).conns =
            some { c with mailbox := c.mailbox ++ [payload] } ∧
          ∃ b2, lookupKey uid (Hub.broadcastToUser h uid payload).clients = some b2 ∧
            cid ∈ b2) ∧
       (¬ c.mailbox.length < c.cap →
          lookupKey cid (Hub.broadcastToUser h uid payload).conns =
            some { c with closed := true } ∧
          ∃ b2, lookupKey uid (Hub.broadcastToUser h uid payload).clients = some b2 ∧
            cid ∉ b2)) ∧
    (∀ u, u ≠ uid →
       lookupKey u (Hub.broadcastToUser h uid payload).clients =
         lookupKey u h.clients) ∧
    (∀ cid, cid ∉ bucket →
       lookupKey cid (Hub.broadcastToUser h uid payload).conns =
         lookupKey cid h.conns) := by
  have hfold : Hub.broadcastToUser h uid payload =
      bucket.foldl (Hub.broadcastStep uid payload) h := by
    unfold Hub.broadcastToUser
    rw [hb]
  rw [hfold]
  have hbn : bucket.Nodup := (hWF.2.2 _ (lookupKey_mem hb)).1
  refine ⟨?_, ?_, ?_⟩
  · intro cid hcid c hc
    exact broadcastFold_target uid payload bucket h cid c bucket hbn hcid hc hb hbn hcid
  · intro u hu
    exact broadcastFold_clients_other uid payload bucket h u hu
  · intro cid hcid
    exact broadcastFold_conns_other uid payload bucket h cid hcid

/-- Witness for `broadcast_fanout_per_connection` on `hubW`: connection 7
(room) gets the payload and stays; connection 8 (full) is closed and
dropped from user 1's bucket; user 2's bucket and connection 9 are
untouched. -/
theorem broadcast_fanout_per_connection_witness :
    lookupKey 7 (Hub.broadcastToUser hubW 1 "x").conns =
      some { userId := 1, cap := 2, mailbox := ["a", "x"], closed := false } ∧
    lookupKey 8 (Hub.broadcastToUser hubW 1 "x").conns =
      some { userId := 1, cap := 1, mailbox := ["b"], closed := true } ∧
    lookupKey 2 (Hub.broadcastToUser hubW 1 "x").clients = some [9] ∧
    lookupKey 9 (Hub.broadcastToUser hubW 1 "x").conns =
      some { userId := 2, cap := 1, mailbox := [], closed := false } := by
  have h := broadcast_fanout_per_connection hubW 1 "x" [7, 8] hubW_WF rfl
  refine ⟨?_, ?_, ?_, ?_⟩
  · exact (h.1 7 (by decide)
      { userId := 1, cap := 2, mailbox := ["a"], closed := false } rfl).1 (by decide) |>.1
  · exact (h.1 8 (by decide)
      { userId := 1, cap := 1, mailbox := ["b"], closed := false } rfl).2 (by decide) |>.1
  · have h2 := h.2.1 2 (by decide)
    rw [h2]
    rfl
  · have h3 := h.2.2 9 (by decide)
    rw [h3]
    rfl

/-! ## Orchestrator lemmas -/

theorem send_eq (env : SendEnv) (st : ServiceState) (req : SendRequest) :
    NotificationService.send env st req =
      if (resolvePrefs env req).IsInQuietHours env.now = true ∧
         req.template ≠ "otp_verification" ∧ req.template ≠ "password_reset" then
        (st, none)
      else
        ((NotificationService.sendChannels env (resolvePrefs env req) st req).1,
         if (NotificationService.sendChannels env (resolvePrefs env req) st req).2.isEmpty
         then none
         else some (NotificationService.sendChannels env (resolvePrefs env req) st req).2) :=
  rfl

theorem repoUpdateStatus_append_fresh (records : List Notification)
    (n : Notification) (status : NotificationStatus) (now : Nat)
    (hfresh : ∀ r ∈ records, r.id ≠ n.id) :
    repoUpdateStatus (records ++ [n]) n.id status now =
      records ++ [applyUpdateStatus n status now] := by
  unfold repoUpdateStatus
  rw [List.map_append]
  congr 1
  · have hmap : ∀ r ∈ records,
        (if r.id = n.id then applyUpdateStatus r status now else r) = r :=
      fun r hr => if_neg (hfresh r hr)
    rw [List.map_congr_left hmap]
    simp
  · simp

theorem sendEmail_ok (env : SendEnv) (st : ServiceState) (req : SendRequest)
    (hs : env.hasEmailSender = true) (hem : req.email ≠ "")
    (hc : env.createOk NotificationType.email = true) (hu : env.updateOk = true)
    (hsend : (if req.template = "otp_verification" then env.emailSendHTMLResult
              else env.emailSendResult) = Except.ok ())
    (hfresh : ∀ r ∈ st.records, r.id ≠ st.nextId) :
    NotificationService.sendEmail env st req =
      ({ records := st.records ++
          [applyUpdateStatus
            { NewNotification st.nextId req.userId NotificationType.email
                req.template req.title req.body env.clock with metadata := req.data }
            NotificationStatus.sent env.clock]
       , nextId := st.nextId + 1 }, none) := by
  unfold NotificationService.sendEmail
  rw [hs, hc]
  simp only [Bool.not_true, Bool.false_eq_true, if_false, if_neg hem, hsend, hu, if_true]
  rw [repoUpdateStatus_append_fresh st.records _ _ _ hfresh]

theorem sendPush_fail (env : SendEnv) (st : ServiceState) (req : SendRequest)
    (msg : String) (hs : env.hasPushSender = true)
    (hc : env.createOk NotificationType.push = true) (hu : env.updateOk = true)
    (hsend : env.pushSendResult = Except.error msg)
    (hfresh : ∀ r ∈ st.records, r.id ≠ st.nextId) :
    NotificationService.sendPush env st req =
      ({ records := st.records ++
          [applyUpdateStatus
            { NewNotification st.nextId req.userId NotificationType.push
                req.template req.title req.body env.clock with metadata := req.data }
            NotificationStatus.failed env.clock]
       , nextId := st.nextId + 1 }, some ("failed to send push: " ++ msg)) := by
  unfold NotificationService.sendPush
  rw [hs, hc]
  simp only [Bool.not_true, Bool.false_eq_true, if_false, hsend, hu, if_true]
  rw [repoUpdateStatus_append_fresh st.records _ _ _ hfresh]

theorem sendPush_ok (env : SendEnv) (st : ServiceState) (req : SendRequest)
    (hs : env.hasPushSender = true)
    (hc : env.createOk NotificationType.push = true) (hu : env.updateOk = true)
    (hsend : env.pushSendResult = Except.ok ())
    (hfresh : ∀ r ∈ st.records, r.id ≠ st.nextId) :
    NotificationService.sendPush env st req =
      ({ records := st.records ++
          [applyUpdateStatus
            { NewNotification st.nextId req.userId NotificationType.push
                req.template req.title req.body env.clock with metadata := req.data }
            NotificationStatus.sent env.clock]
       , nextId := st.nextId + 1 }, none) := by
  unfold NotificationService.sendPush
  rw [hs, hc]
  simp only [Bool.not_true, Bool.false_eq_true, if_false, hsend, hu, if_true]
  rw [repoUpdateStatus_append_fresh st.records _ _ _ hfresh]

theorem sendInApp_ok (env : SendEnv) (st : ServiceState) (req : SendRequest)
    (hc : env.createOk NotificationType.inApp = true) (hu : env.updateOk = true)
    (hfresh : ∀ r ∈ st.records, r.id ≠ st.nextId) :
    NotificationService.sendInApp env st req =
      ({ records := st.records ++
          [applyUpdateStatus
            { NewNotification st.nextId req.userId NotificationType.inApp
                req.template req.title req.body env.clock with metadata := req.data }
            NotificationStatus.sent env.clock]
       , nextId := st.nextId + 1 }, none) := by
  unfold NotificationService.sendInApp
  rw [hc]
  simp only [Bool.not_true, Bool.false_eq_true, if_false, hu, if_true]
  rw [repoUpdateStatus_append_fresh st.records _ _ _ hfresh]

/-! ## Preference-gate and orchestrator claim theorems -/

/-- C6: the quiet-hours window semantics: with both bounds present and
`start > end` the window wraps midnight (`t ≥ start ∨ t < end`, so `start`
is inside and `end` is outside); with `start ≤ end` it is the half-open
interval `start ≤ t < end`; with either bound absent the user is never in
quiet hours. -/
theorem quiet_hours_window_semantics (p : NotificationPreferences)
    (now : TimeOfDay) (qs qe : TimeOfDay)
    (hs : p.quietHoursStart = some qs) (he : p.quietHoursEnd = some qe) :
    ((qs.hour * 60 + qs.minute > qe.hour * 60 + qe.minute →
       ((p.IsInQuietHours now = true) ↔
         (now.hour * 60 + now.minute ≥ qs.hour * 60 + qs.minute ∨
          now.hour * 60 + now.minute < qe.hour * 60 + qe.minute))) ∧
     (qs.hour * 60 + qs.minute ≤ qe.hour * 60 + qe.minute →
       ((p.IsInQuietHours now = true) ↔
         (qs.hour * 60 + qs.minute ≤ now.hour * 60 + now.minute ∧
          now.hour * 60 + now.minute < qe.hour * 60 + qe.minute))) ∧
     (qs.hour * 60 + qs.minute > qe.hour * 60 + qe.minute →
       p.IsInQuietHours qs = true ∧ p.IsInQuietHours qe = false)) ∧
    (∀ q : NotificationPreferences,
      (q.quietHoursStart = none ∨ q.quietHoursEnd = none) →
      q.IsInQuietHours now = false) := by
  constructor
  · refine ⟨?_, ?_, ?_⟩
    · intro hgt
      simp only [NotificationPreferences.IsInQuietHours, hs, he, if_pos hgt,
        Bool.or_eq_true, decide_eq_true_eq]
    · intro hle
      have hngt : ¬ (qs.hour * 60 + qs.minute > qe.hour * 60 + qe.minute) :=
        not_lt.mpr hle
      simp only [NotificationPreferences.IsInQuietHours, hs, he, if_neg hngt,
        Bool.and_eq_true, decide_eq_true_eq]
    · intro hgt
      constructor
      · simp only [NotificationPreferences.IsInQuietHours, hs, he, if_pos hgt,
          Bool.or_eq_true, decide_eq_true_eq]
        left
        exact le_refl _
      · simp only [NotificationPreferences.IsInQuietHours, hs, he, if_pos hgt,
          Bool.or_eq_false_iff, decide_eq_false_iff_not]
        omega
  · intro q hq
    rcases hq with h0 | h0
    · cases heq : q.quietHoursEnd <;>
        simp [NotificationPreferences.IsInQuietHours, h0, heq]
    · cases hsq : q.quietHoursStart <;>
        simp [NotificationPreferences.IsInQuietHours, h0, hsq]

/-- Witness for `quiet_hours_window_semantics` at a concrete wrapping
window 22:00–07:00 and clock 23:30. -/
theorem quiet_hours_window_semantics_witness :
    ((NotificationPreferences.IsInQuietHours
        { userId := 1, emailEnabled := true, pushEnabled := true
        , channelSettings := []
        , quietHoursStart := some { hour := 22, minute := 0 }
        , quietHoursEnd := some { hour := 7, minute := 0 }
        , createdAt := 0, updatedAt := 0 }
        { hour := 23, minute := 30 } = true) ↔
      ((23 * 60 + 30 : Nat) ≥ 22 * 60 + 0 ∨ (23 * 60 + 30 : Nat) < 7 * 60 + 0)) := by
  have h := quiet_hours_window_semantics
    { userId := 1, emailEnabled := true, pushEnabled := true
    , channelSettings := []
    , quietHoursStart := some { hour := 22, minute := 0 }
    , quietHoursEnd := some { hour := 7, minute := 0 }
    , createdAt := 0, updatedAt := 0 }
    { hour := 23, minute := 30 }
    { hour := 22, minute := 0 } { hour := 7, minute := 0 } rfl rfl
  exact h.1.1 (by decide)

/-- C1: a send over channels {email, push} where the email provider call
succeeds and the push provider call fails yields exactly two new records —
the email one ending `sent`, the push one ending `failed` — and an
aggregate error whose only entry is tagged with the push channel; the email
outcome is not rolled back. -/
theorem send_email_push_partial_failure (env : SendEnv) (st : ServiceState)
    (req : SendRequest) (msg : String)
    (hch : req.channels = [NotificationType.email, NotificationType.push])
    (hem : req.email ≠ "")
    (hq : (resolvePrefs env req).IsInQuietHours env.now = false)
    (hee : (resolvePrefs env req).emailEnabled = true)
    (hpe : (resolvePrefs env req).pushEnabled = true)
    (hes : env.hasEmailSender = true) (hps : env.hasPushSender = true)
    (hce : env.createOk NotificationType.email = true)
    (hcp : env.createOk NotificationType.push = true)
    (hu : env.updateOk = true)
    (hsend : (if req.template = "otp_verification" then env.emailSendHTMLResult
              else env.emailSendResult) = Except.ok ())
    (hpush : env.pushSendResult = Except.error msg)
    (hfresh : ∀ r ∈ st.records, r.id < st.nextId) :
    ∃ e p, NotificationService.send env st req =
        ({ records := st.records ++ [e, p], nextId := st.nextId + 2 },
         some [(NotificationType.push, "failed to send push: " ++ msg)]) ∧
      e.type = NotificationType.email ∧ e.status = NotificationStatus.sent ∧
      p.type = NotificationType.push ∧ p.status = NotificationStatus.failed := by
  have hfne : ∀ r ∈ st.records, r.id ≠ st.nextId :=
    fun r hr => Nat.ne_of_lt (hfresh r hr)
  have hemail := sendEmail_ok env st req hes hem hce hu hsend hfne
  have hfne1 : ∀ r ∈ st.records ++
      [applyUpdateStatus
        { NewNotification st.nextId req.userId NotificationType.email
            req.template req.title req.body env.clock with metadata := req.data }
        NotificationStatus.sent env.clock], r.id ≠ st.nextId + 1 := by
    intro r hr
    rcases List.mem_append.mp hr with h1 | h1
    · exact Nat.ne_of_lt (Nat.lt_succ_of_lt (hfresh r h1))
    · rw [List.mem_singleton.mp h1]
      exact Nat.ne_of_lt (Nat.lt_succ_self _)
  have hpushL := sendPush_fail env
    { records := st.records ++
        [applyUpdateStatus
          { NewNotification st.nextId req.userId NotificationType.email
              req.template req.title req.body env.clock with metadata := req.data }
          NotificationStatus.sent env.clock]
    , nextId := st.nextId + 1 } req msg hps hcp hu hpush hfne1
  have hcond : ¬ ((resolvePrefs env req).IsInQuietHours env.now = true ∧
      req.template ≠ "otp_verification" ∧ req.template ≠ "password_reset") := by
    intro hx
    rw [hq] at hx
    exact Bool.false_ne_true hx.1
  have hchan : NotificationService.sendChannels env (resolvePrefs env req) st req =
      ({ records := st.records ++
          [applyUpdateStatus
            { NewNotification st.nextId req.userId NotificationType.email
                req.template req.title req.body env.clock with metadata := req.data }
            NotificationStatus.sent env.clock,
           applyUpdateStatus
            { NewNotification (st.nextId + 1) req.userId NotificationType.push
                req.template req.title req.body env.clock with metadata := req.data }
            NotificationStatus.failed env.clock]
       , nextId := st.nextId + 2 },
       [(NotificationType.push, "failed to send push: " ++ msg)]) := by
    unfold NotificationService.sendChannels
    rw [hch]
    simp only [List.foldl_cons, List.foldl_nil, hee, hpe, Bool.not_true,
      Bool.false_eq_true, if_false, hemail, hpushL, List.nil_append,
      List.append_assoc, List.singleton_append]
  refine ⟨applyUpdateStatus
      { NewNotification st.nextId req.userId NotificationType.email
          req.template req.title req.body env.clock with metadata := req.data }
      NotificationStatus.sent env.clock,
    applyUpdateStatus
      { NewNotification (st.nextId + 1) req.userId NotificationType.push
          req.template req.title req.body env.clock with metadata := req.data }
      NotificationStatus.failed env.clock, ?_, rfl, rfl, rfl, rfl⟩
  rw [send_eq, if_neg hcond, hchan]
  rfl

/-- Witness for `send_email_push_partial_failure` at a concrete request. -/
theorem send_email_push_partial_failure_witness :
    ∃ e p, NotificationService.send envC1 { records := [], nextId := 0 } reqC1 =
        ({ records := ([] : List Notification) ++ [e, p], nextId := 0 + 2 },
         some [(NotificationType.push, "failed to send push: " ++ "boom")]) ∧
      e.type = NotificationType.email ∧ e.status = NotificationStatus.sent ∧
      p.type = NotificationType.push ∧ p.status = NotificationStatus.failed :=
  send_email_push_partial_failure envC1 { records := [], nextId := 0 } reqC1 "boom"
    rfl (by decide) rfl rfl rfl rfl rfl rfl rfl rfl rfl rfl
    (fun r hr => absurd hr (List.not_mem_nil r))

/-- C5: quiet-hours suppression is a request-level gate evaluated before any
per-channel processing: during quiet hours a request whose template is
outside the critical set returns success with the state untouched (no
record created, no channel attempted), while a critical-template request
proceeds to the per-channel loop exactly as outside quiet hours. -/
theorem quiet_hours_request_gate (env : SendEnv) (st : ServiceState)
    (req : SendRequest) :
    ((resolvePrefs env req).IsInQuietHours env.now = true →
       req.template ≠ "otp_verification" → req.template ≠ "password_reset" →
       NotificationService.send env st req = (st, none)) ∧
    (req.template = "otp_verification" ∨ req.template = "password_reset" →
       NotificationService.send env st req =
         ((NotificationService.sendChannels env (resolvePrefs env req) st req).1,
          if (NotificationService.sendChannels env (resolvePrefs env req) st req).2.isEmpty
          then none
          else some (NotificationService.sendChannels env (resolvePrefs env req) st req).2)) := by
  constructor
  · intro hq h1 h2
    rw [send_eq, if_pos ⟨hq, h1, h2⟩]
  · intro hcrit
    rw [send_eq, if_neg ?_]
    intro hx
    rcases hcrit with h1 | h1
    · exact hx.2.1 h1
    · exact hx.2.2 h1

/-- Witness for `quiet_hours_request_gate`: during the 22:00–07:00 window a
"marketing" request is suppressed wholesale, while the same request with
the critical "otp_verification" template reaches the per-channel loop. -/
theorem quiet_hours_request_gate_witness :
    NotificationService.send envC5 { records := [], nextId := 0 } reqC5 =
      ({ records := [], nextId := 0 }, none) ∧
    NotificationService.send envC5 { records := [], nextId := 0 }
        { reqC5 with template := "otp_verification" } =
      ((NotificationService.sendChannels envC5
          (resolvePrefs envC5 { reqC5 with template := "otp_verification" })
          { records := [], nextId := 0 }
          { reqC5 with template := "otp_verification" }).1,
       if (NotificationService.sendChannels envC5
          (resolvePrefs envC5 { reqC5 with template := "otp_verification" })
          { records := [], nextId := 0 }
          { reqC5 with template := "otp_verification" }).2.isEmpty
       then none
       else some (NotificationService.sendChannels envC5
          (resolvePrefs envC5 { reqC5 with template := "otp_verification" })
          { records := [], nextId := 0 }
          { reqC5 with template := "otp_verification" }).2) :=
  ⟨(quiet_hours_request_gate envC5 { records := [], nextId := 0 } reqC5).1
      rfl (by decide) (by decide),
   (quiet_hours_request_gate envC5 { records := [], nextId := 0 }
      { reqC5 with template := "otp_verification" }).2 (Or.inl rfl)⟩

/-- C8: the in-app path persists the record and marks it `sent`
unconditionally with respect to the hub: for every broadcast outcome and
whether or not a notifier is even configured — and hence regardless of
whether the user has live connections — `sendInApp` appends exactly one
`in_app` record in `sent` status and returns no error. -/
theorem in_app_sent_regardless_of_broadcast (env : SendEnv) (st : ServiceState)
    (req : SendRequest)
    (hc : env.createOk NotificationType.inApp = true) (hu : env.updateOk = true)
    (hfresh : ∀ r ∈ st.records, r.id ≠ st.nextId) :
    ∃ n, NotificationService.sendInApp env st req =
        ({ records := st.records ++ [n], nextId := st.nextId + 1 }, none) ∧
      n.type = NotificationType.inApp ∧ n.status = NotificationStatus.sent ∧
      n.sentAt = some env.clock := by
  refine ⟨applyUpdateStatus
      { NewNotification st.nextId req.userId NotificationType.inApp
          req.template req.title req.body env.clock with metadata := req.data }
      NotificationStatus.sent env.clock, ?_, rfl, rfl, rfl⟩
  exact sendInApp_ok env st req hc hu hfresh

/-- Witness for `in_app_sent_regardless_of_broadcast`, with an environment
whose notifier reports a broadcast failure. -/
theorem in_app_sent_regardless_of_broadcast_witness :
    ∃ n, NotificationService.sendInApp
        { envC1 with notifyResult := Except.error "no connection" }
        { records := [], nextId := 0 }
        { reqC1 with channels := [NotificationType.inApp] } =
        ({ records := ([] : List Notification) ++ [n], nextId := 0 + 1 }, none) ∧
      n.type = NotificationType.inApp ∧ n.status = NotificationStatus.sent ∧
      n.sentAt = some ({ envC1 with notifyResult := Except.error "no connection" } : SendEnv).clock :=
  in_app_sent_regardless_of_broadcast
    { envC1 with notifyResult := Except.error "no connection" }
    { records := [], nextId := 0 }
    { reqC1 with channels := [NotificationType.inApp] }
    rfl rfl (fun r hr => absurd hr (List.not_mem_nil r))

/-- C2 counterexample: under `pC2` the spec-worded eligibility function
(and the helper `IsChannelEnabled`) says the "marketing" email is eligible
via the category override, yet the dispatch path skips the email channel —
`Send` creates no record and returns success — because it consults only
the global `EmailEnabled` flag. -/
theorem dispatch_eligibility_cex :
    specChannelEligible pC2 NotificationType.email "marketing" = true ∧
    pC2.IsChannelEnabled "marketing" = true ∧
    pC2.emailEnabled = false ∧
    NotificationService.send envC2 { records := [], nextId := 0 } reqC2 =
      ({ records := [], nextId := 0 }, none) := by
  refine ⟨rfl, rfl, rfl, ?_⟩
  decide

/-- C2 (amended): the dispatch loop's per-channel gate is the channel's
global enabled flag alone — its outcome depends on the preferences only
through `EmailEnabled` and `PushEnabled`, and a disabled global flag skips
the channel (no record, no error) regardless of any category override —
while the helper `IsChannelEnabled` returns the category override when set
and otherwise defaults to `true`, not to the channel's global flag. -/
theorem dispatch_gate_is_global_flag :
    (∀ (p : NotificationPreferences) (cat : String),
        p.IsChannelEnabled cat = (p.channelSettings.lookup cat).getD true) ∧
    (∀ (env : SendEnv) (p1 p2 : NotificationPreferences) (st : ServiceState)
        (req : SendRequest),
        p1.emailEnabled = p2.emailEnabled → p1.pushEnabled = p2.pushEnabled →
        NotificationService.sendChannels env p1 st req =
          NotificationService.sendChannels env p2 st req) ∧
    (∀ (env : SendEnv) (p : NotificationPreferences) (st : ServiceState)
        (req : SendRequest),
        req.channels = [NotificationType.email] → p.emailEnabled = false →
        NotificationService.sendChannels env p st req = (st, [])) ∧
    (∀ (env : SendEnv) (p : NotificationPreferences) (st : ServiceState)
        (req : SendRequest),
        req.channels = [NotificationType.push] → p.pushEnabled = false →
        NotificationService.sendChannels env p st req = (st, [])) := by
  refine ⟨?_, ?_, ?_, ?_⟩
  · intro p cat
    unfold NotificationPreferences.IsChannelEnabled
    cases p.channelSettings.lookup cat <;> rfl
  · intro env p1 p2 st req he hp
    unfold NotificationService.sendChannels
    rw [he, hp]
  · intro env p st req hch hflag
    unfold NotificationService.sendChannels
    rw [hch]
    simp only [List.foldl_cons, List.foldl_nil, hflag, Bool.not_false, if_true]
  · intro env p st req hch hflag
    unfold NotificationService.sendChannels
    rw [hch]
    simp only [List.foldl_cons, List.foldl_nil, hflag, Bool.not_false, if_true]

/-- Witness for `dispatch_gate_is_global_flag` on `pC2` and a concrete
email-only request. -/
theorem dispatch_gate_is_global_flag_witness :
    pC2.IsChannelEnabled "promo" = ((pC2.channelSettings.lookup "promo").getD true) ∧
    NotificationService.sendChannels envC2 pC2 { records := [], nextId := 0 } reqC2 =
      ({ records := [], nextId := 0 }, []) := by
  have h := dispatch_gate_is_global_flag
  exact ⟨h.1 pC2 "promo",
    h.2.2.1 envC2 pC2 { records := [], nextId := 0 } reqC2 rfl rfl⟩

/-- C9: when the user has active tokens and the multicast request itself
succeeds, `Client.SendToUser` returns success no matter what the per-token
responses say — it only deactivates tokens whose response failed as
unregistered/invalid — and consequently the orchestrator records the push
notification as `sent` with no aggregate error. -/
theorem push_token_failures_not_surfaced (fenv : FirebaseEnv)
    (tokens : List String) (response : FcmBatchResponse)
    (env : SendEnv) (st : ServiceState) (req : SendRequest)
    (ht : fenv.tokensResult = Except.ok tokens) (hne : tokens ≠ [])
    (hm : fenv.multicastResult = Except.ok response)
    (hlink : env.pushSendResult = (Client.SendToUser fenv).1)
    (hs : env.hasPushSender = true)
    (hc : env.createOk NotificationType.push = true)
    (hu : env.updateOk = true)
    (hfresh : ∀ r ∈ st.records, r.id ≠ st.nextId) :
    (Client.SendToUser fenv).1 = Except.ok () ∧
    (∀ tok ∈ (Client.SendToUser fenv).2,
       ∃ pr ∈ response.responses.zip tokens,
         pr.2 = tok ∧ pr.1.success = false ∧ pr.1.unregisteredOrInvalid = true) ∧
    ∃ n, NotificationService.sendPush env st req =
        ({ records := st.records ++ [n], nextId := st.nextId + 1 }, none) ∧
      n.type = NotificationType.push ∧ n.status = NotificationStatus.sent := by
  have hlen : ¬ tokens.length = 0 := fun h0 => hne (List.length_eq_zero.mp h0)
  have hres : Client.SendToUser fenv =
      (Except.ok (),
       if response.failureCount > 0 then
         (response.responses.zip tokens).filterMap fun pr =>
           if !pr.1.success ∧ pr.1.unregisteredOrInvalid then some pr.2 else none
       else []) := by
    unfold Client.SendToUser
    rw [ht]
    simp only [if_neg hlen, hm]
  refine ⟨by rw [hres], ?_, ?_⟩
  · intro tok htok
    rw [hres] at htok
    simp only at htok
    by_cases hfc : response.failureCount > 0
    · rw [if_pos hfc] at htok
      rcases List.mem_filterMap.mp htok with ⟨pr, hpr, hf⟩
      by_cases hcond : (!pr.1.success : Bool) ∧ pr.1.unregisteredOrInvalid
      · rw [if_pos hcond] at hf
        refine ⟨pr, hpr, Option.some.inj hf, ?_, hcond.2⟩
        cases hsb : pr.1.success
        · rfl
        · rw [hsb] at hcond
          exact absurd hcond.1 (by decide)
      · rw [if_neg hcond] at hf
        exact absurd hf (Option.noConfusion)
    · rw [if_neg hfc] at htok
      exact absurd htok (List.not_mem_nil tok)
  · have hsend : env.pushSendResult = Except.ok () := by
      rw [hlink, hres]
    refine ⟨applyUpdateStatus
        { NewNotification st.nextId req.userId NotificationType.push
            req.template req.title req.body env.clock with metadata := req.data }
        NotificationStatus.sent env.clock, ?_, rfl, rfl⟩
    exact sendPush_ok env st req hs hc hu hsend hfresh

/-- Witness for `push_token_failures_not_surfaced`: both device sends fail,
yet the call returns success and the orchestrator marks the record sent. -/
theorem push_token_failures_not_surfaced_witness :
    (Client.SendToUser fenvC9).1 = Except.ok () ∧
    (∀ tok ∈ (Client.SendToUser fenvC9).2,
       ∃ pr ∈ respC9.responses.zip ["tokA", "tokB"],
         pr.2 = tok ∧ pr.1.success = false ∧ pr.1.unregisteredOrInvalid = true) ∧
    ∃ n, NotificationService.sendPush envC9 { records := [], nextId := 0 } reqC1 =
        ({ records := ([] : List Notification) ++ [n], nextId := 0 + 1 }, none) ∧
      n.type = NotificationType.push ∧ n.status = NotificationStatus.sent :=
  push_token_failures_not_surfaced fenvC9 ["tokA", "tokB"] respC9 envC9
    { records := [], nextId := 0 } reqC1 rfl (by decide) rfl rfl rfl rfl rfl
    (fun r hr => absurd hr (List.not_mem_nil r))

/-- C4: the first `MarkAsRead` succeeds and stamps the read timestamp; the
second call leaves the row — including its read timestamp — unchanged but
returns the not-found error, because the SQL `WHERE read_at IS NULL`
matches zero rows and the Go code reports `RowsAffected == 0` as
`ErrNotFound` even though the record exists. -/
theorem mark_as_read_second_call_errors :
    NotificationRepository.MarkAsRead [rowC4] 1 60 =
      ([{ rowC4 with readAt := some 60, updatedAt := 60 }], none) ∧
    NotificationRepository.MarkAsRead
        [{ rowC4 with readAt := some 60, updatedAt := 60 }] 1 70 =
      ([{ rowC4 with readAt := some 60, updatedAt := 60 }],
       some "notification not found: 1") := by
  constructor
  · decide
  · decide
